import Mathlib

/-!
Verification development for the Task Command Center dashboard
(`dashboard/app.js`).  The JavaScript functions that the claims are about
are shallowly embedded as executable Lean definitions: JS arrays become
lists, objects become structures, `undefined`-able string fields become
`Option String`, and JS truthiness on strings (`undefined` and `""` are
falsy) is made explicit.
-/

namespace TaskCC

/-- A task's `schedule` object: `{type, time}`. -/
structure Schedule where
  stype : String
  time : String
  deriving DecidableEq

/-- A task record as the dashboard manipulates it.  Fields the code reads
with JS truthiness (may be `undefined`) are `Option String`; `localFlag`
and `pendingSync` model the `_local` and `_pendingSync` markers. -/
structure Task where
  id : String
  source : String
  type : String
  subject : String
  description : Option String
  working_dir : Option String
  status : String
  created : Option String
  last_updated : Option String
  assigned_skill : Option String
  assigned_agent : Option String
  project : Option String
  project_name : Option String
  schedule : Option Schedule
  retry_count : Option Nat
  last_result : String
  localFlag : Bool
  pendingSync : Bool
  deriving DecidableEq

/-- Default task: every optional field absent, flags clear.  Concrete
tasks in witnesses are built by updating this record. -/
def Task.default : Task :=
  { id := "", source := "", type := "", subject := "", description := none
  , working_dir := none, status := "", created := none, last_updated := none
  , assigned_skill := none, assigned_agent := none, project := none
  , project_name := none, schedule := none, retry_count := none
  , last_result := "", localFlag := false, pendingSync := false }

/-- `hasPrefixChars l sub`: `sub` is a prefix of `l`. -/
def hasPrefixChars : List Char → List Char → Bool
  | _, [] => true
  | [], _ :: _ => false
  | a :: as, b :: bs => a == b && hasPrefixChars as bs

/-- `hasInfixChars l sub`: `sub` occurs contiguously inside `l`. -/
def hasInfixChars : List Char → List Char → Bool
  | [], sub => sub.isEmpty
  | a :: as, sub => hasPrefixChars (a :: as) sub || hasInfixChars as sub

/-- JS `a.includes(b)`: substring containment, case-sensitive. -/
def includesStr (s sub : String) : Bool :=
  hasInfixChars s.toList sub.toList

/-- JS `s.trim()`: strip leading and trailing whitespace. -/
def jsTrim (s : String) : String :=
  ⟨((s.toList.dropWhile Char.isWhitespace).reverse.dropWhile Char.isWhitespace).reverse⟩

/-- JS `v || d` on a possibly-undefined string: `undefined` and `""` are
falsy and yield the default. -/
def jsOr (v : Option String) (d : String) : String :=
  match v with
  | none => d
  | some s => if s = "" then d else s

/-- JS truthiness of a possibly-undefined string. -/
def strTruthy (v : Option String) : Bool :=
  match v with
  | none => false
  | some s => s ≠ ""

/-- Display record returned by `getStatusInfo` (`text`, `icon`, `class`). -/
structure StatusInfo where
  text : String
  icon : String
  cls : String
  deriving DecidableEq

/-- Display record returned by `getSourceInfo`; its `text` echoes the
(possibly undefined) input in the fallback case. -/
structure SourceInfo where
  text : Option String
  icon : String
  deriving DecidableEq

/-- `getStatusInfo`: lookup in the `statuses` object with
`statuses[status] || statuses.pending` fallback. -/
def getStatusInfo (status : Option String) : StatusInfo :=
  if status = some "pending" then { text := "ממתין", icon := "⏳", cls := "pending" }
  else if status = some "in_progress" then { text := "בביצוע", icon := "🔄", cls := "in_progress" }
  else if status = some "completed" then { text := "הושלם", icon := "✅", cls := "completed" }
  else if status = some "failed" then { text := "נכשל", icon := "❌", cls := "failed" }
  else { text := "ממתין", icon := "⏳", cls := "pending" }

/-- `getSourceInfo`: lookup in the `sources` object with
`sources[source] || { text: source, icon: '📄' }` fallback. -/
def getSourceInfo (source : Option String) : SourceInfo :=
  if source = some "scheduled" then { text := some "מתוזמן", icon := "📅" }
  else if source = some "session" then { text := some "סשן", icon := "📋" }
  else if source = some "project" then { text := some "פרויקט", icon := "📁" }
  else { text := source, icon := "📄" }

/-- One entry of `results.issues` in `analyzeTaskHealth`. -/
structure HealthIssue where
  task : String
  issue : String
  suggestion : String
  deriving DecidableEq

/-- JS `s.substring(0, n)`. -/
def jsSubstring (s : String) (n : Nat) : String :=
  ⟨s.toList.take n⟩

/-- The pattern-matching branch of `analyzeTaskHealth` for one failed task
whose `last_result` is truthy: the issue pushed onto `results.issues`. -/
def classifyFailure (t : Task) : HealthIssue :=
  if includesStr t.last_result "claude" ∧ includesStr t.last_result "not" then
    { task := t.subject, issue := "Claude path not found"
    , suggestion := "Use full path: C:\\Users\\user\\.local\\bin\\claude.exe" }
  else if includesStr t.last_result "permission" then
    { task := t.subject, issue := "Permission denied"
    , suggestion := "Run as administrator or check file permissions" }
  else
    { task := t.subject, issue := "Unknown error"
    , suggestion := jsSubstring t.last_result 100 }

/-- The result object of `analyzeTaskHealth` (DOM-independent fields). -/
structure HealthResults where
  total : Nat
  pending : Nat
  in_progress : Nat
  completed : Nat
  failed : Nat
  failedTasks : List Task
  fixesAttempted : Nat
  fixesSuccessful : Nat
  issues : List HealthIssue
  deriving DecidableEq

/-- `analyzeTaskHealth`: counts tasks by status, collects
`failedTasks = tasks.filter(t => t.status === 'failed')`, and for each
failed task with truthy `last_result` pushes one classified issue. -/
def analyzeTaskHealth (tasks : List Task) : HealthResults :=
  let failedTasks := tasks.filter (fun t => t.status == "failed")
  { total := tasks.length
  , pending := (tasks.filter (fun t => t.status == "pending")).length
  , in_progress := (tasks.filter (fun t => t.status == "in_progress")).length
  , completed := (tasks.filter (fun t => t.status == "completed")).length
  , failed := failedTasks.length
  , failedTasks := failedTasks
  , fixesAttempted := 0
  , fixesSuccessful := 0
  , issues := failedTasks.filterMap (fun t =>
      if t.last_result ≠ "" then some (classifyFailure t) else none) }

/-- Case-insensitive substring containment (JS
`a.toLowerCase().includes(b.toLowerCase())`), used to state the spec's
"case-insensitive" reading of the pattern matching. -/
def includesCI (s sub : String) : Bool :=
  hasInfixChars (s.toList.map Char.toLower) (sub.toList.map Char.toLower)

/-- The `task._local = true; task._pendingSync = true` marking applied to
every pending draft in `loadPendingLocalTasks`. -/
def markPending (t : Task) : Task :=
  { t with localFlag := true, pendingSync := true }

/-- One iteration of the `pendingTasks.forEach` loop in
`loadPendingLocalTasks`: mark the draft, then `unshift` it unless a task
with the same id already exists. -/
def mergeStep (acc : List Task) (d : Task) : List Task :=
  let d := markPending d
  if acc.any (fun t => t.id == d.id) then acc else d :: acc

/-- `loadPendingLocalTasks`: merge the pending local drafts into the
loaded task list, deduplicating by id only. -/
def loadPendingLocalTasks (tasks pending : List Task) : List Task :=
  pending.foldl mergeStep tasks

/-- The two assignment kinds used by `saveTaskAssignment` /
`loadTaskAssignments` (the JS `type` argument, 'skill' or 'agent'). -/
inductive AssignType
  | skill
  | agent
  deriving DecidableEq

/-- One value of the `task_assignments` object: `{skill?, agent?}`. -/
structure AssignEntry where
  skill : Option String
  agent : Option String
  deriving DecidableEq

/-- The parsed `task_assignments` localStorage object: an association
list keyed by task id. -/
abbrev AssignStore : Type := List (String × AssignEntry)

/-- Object property lookup `assignments[taskId]`. -/
def storeLookup (store : AssignStore) (id : String) : Option AssignEntry :=
  (List.find? (fun p => p.1 == id) store).map Prod.snd

/-- Object property update `assignments[taskId] = e` (replaces the
existing key or adds a new one). -/
def storeInsert : AssignStore → String → AssignEntry → AssignStore
  | [], id, e => [(id, e)]
  | p :: rest, id, e => if p.1 == id then (id, e) :: rest else p :: storeInsert rest id e

/-- `assignments[taskId][type] = value` resp. the
`delete assignments[taskId][type]` branch for a null value. -/
def setField (e : AssignEntry) (ty : AssignType) (v : Option String) : AssignEntry :=
  match ty with
  | .skill => { e with skill := v }
  | .agent => { e with agent := v }

/-- `saveTaskAssignment(taskId, type, value)` acting on the parsed
`task_assignments` store: creates the `{}` entry when absent, deletes the
field on null, otherwise stores the value. -/
def saveTaskAssignment (store : AssignStore) (taskId : String) (ty : AssignType)
    (value : Option String) : AssignStore :=
  let entry := (storeLookup store taskId).getD ⟨none, none⟩
  storeInsert store taskId (setField entry ty value)

/-- Application of one `task_assignments` entry to a task inside the
`state.tasks.forEach` loop of `loadTaskAssignments`: a stored field is
applied only when truthy (`if (assignments[task.id].skill)`). -/
def applyEntry (e : AssignEntry) (t : Task) : Task :=
  let t1 := match e.skill with
    | some s => if s ≠ "" then { t with assigned_skill := some s } else t
    | none => t
  match e.agent with
  | some a => if a ≠ "" then { t1 with assigned_agent := some a } else t1
  | none => t1

/-- The body of the `state.tasks.forEach` loop in `loadTaskAssignments`:
look the task's entry up (`if (assignments[task.id])`) and apply it. -/
def applyAssignmentsTask (store : AssignStore) (t : Task) : Task :=
  match storeLookup store t.id with
  | none => t
  | some e => applyEntry e t

/-- `loadTaskAssignments`: apply every stored assignment to the task
list. -/
def loadTaskAssignments (tasks : List Task) (store : AssignStore) : List Task :=
  tasks.map (applyAssignmentsTask store)

/-- `saveTaskLocally`: replace the first pending task with the same id
(`findIndex` hit) or push at the end. -/
def saveTaskLocally : List Task → Task → List Task
  | [], task => [task]
  | t :: rest, task =>
    if t.id == task.id then task :: rest else t :: saveTaskLocally rest task

/-- The `by_status` object of the statistics computed in `saveNewTask`. -/
structure ByStatus where
  pending : Nat
  in_progress : Nat
  completed : Nat
  failed : Nat
  deriving DecidableEq

/-- The statistics object `{total, by_status}`. -/
structure Stats where
  total : Nat
  by_status : ByStatus
  deriving DecidableEq

/-- The `stats` object built inline in `saveNewTask` after the unshift:
`total = state.tasks.length` and one filtered count per status. -/
def computeStats (tasks : List Task) : Stats :=
  { total := tasks.length
  , by_status :=
    { pending := (tasks.filter (fun t => t.status == "pending")).length
    , in_progress := (tasks.filter (fun t => t.status == "in_progress")).length
    , completed := (tasks.filter (fun t => t.status == "completed")).length
    , failed := (tasks.filter (fun t => t.status == "failed")).length } }

/-- The new-task form fields read by `saveNewTask`. -/
structure NewTaskForm where
  title : String
  description : String
  workingDir : String
  agent : String
  skill : String
  scheduleType : String
  scheduleTime : String
  deriving DecidableEq

/-- Outcome of `saveNewTask`: whether it validated, the toast shown, the
updated in-memory list and pending-local store, and the statistics passed
to `updateStatistics` (none when rejected, so the display is untouched). -/
structure SaveNewTaskResult where
  success : Bool
  toast : String
  tasks : List Task
  pendingStore : List Task
  stats : Option Stats
  deriving DecidableEq

/-- `saveNewTask`: validate title and working directory, build the new
task object, save it locally, unshift it into the task list and recompute
statistics.  `nowMs` is `Date.now()`, `nowIso` the ISO timestamp. -/
def saveNewTask (form : NewTaskForm) (nowMs : Nat) (nowIso : String)
    (tasks pendingStore : List Task) : SaveNewTaskResult :=
  let title := jsTrim form.title
  let description := jsTrim form.description
  let workingDir := jsTrim form.workingDir
  if title = "" then
    { success := false, toast := "Please enter a task title"
    , tasks := tasks, pendingStore := pendingStore, stats := none }
  else if workingDir = "" then
    { success := false, toast := "Working directory is required!"
    , tasks := tasks, pendingStore := pendingStore, stats := none }
  else
    let newTask : Task :=
      { id := "local_" ++ toString nowMs
      , source := if form.scheduleType = "later" then "scheduled" else "session"
      , type := "task"
      , subject := title
      , description := some description
      , working_dir := some workingDir
      , status := "pending"
      , created := some nowIso
      , last_updated := some nowIso
      , assigned_skill := if form.skill = "" then none else some form.skill
      , assigned_agent := if form.agent = "" then none else some form.agent
      , project := some "Local Tasks"
      , project_name := some "Local Tasks"
      , schedule :=
          if form.scheduleType = "later" ∧ form.scheduleTime ≠ "" then
            some ⟨"once", form.scheduleTime⟩
          else none
      , retry_count := none
      , last_result := ""
      , localFlag := true
      , pendingSync := true }
    let tasks2 := newTask :: tasks
    { success := true, toast := "Task created successfully!"
    , tasks := tasks2
    , pendingStore := saveTaskLocally pendingStore newTask
    , stats := some (computeStats tasks2) }

/-- The JSON body sent to `POST /api/run-task` by `startTask`. -/
structure RunRequest where
  taskId : String
  task : String
  workingDir : String
  skill : Option String
  deriving DecidableEq

/-- Outcome of the `fetch`/`response.json()` pair in `startTask`: either
an exception or the parsed `{success, runId, error}` result. -/
inductive ServerResponse
  | threw (msg : String)
  | json (success : Bool) (runId : String) (error : String)
  deriving DecidableEq

/-- The in-place mutation of the task object returned by
`state.tasks.find`: the first task with the given id gets
`status = 'in_progress'` and a fresh `last_updated`. -/
def updateFirstById : List Task → String → String → List Task
  | [], _, _ => []
  | t :: rest, taskId, nowIso =>
    if t.id == taskId then
      { t with status := "in_progress", last_updated := some nowIso } :: rest
    else t :: updateFirstById rest taskId nowIso

/-- Outcome of `startTask`: the updated task list, the request body sent
to the server (when the server path ran), and the manual command shown in
the fallback modal. -/
structure StartResult where
  tasks : List Task
  request : Option RunRequest
  command : Option String
  deriving DecidableEq

/-- `startTask(taskId)`: look the task up by id; on the server path build
the run request (defaulting a falsy `working_dir` to the desktop path) and
update the task only when the server reports success; otherwise show the
manual command. -/
def startTask (tasks : List Task) (taskId : String) (serverAvailable : Bool)
    (resp : ServerResponse) (nowIso : String) : StartResult :=
  match tasks.find? (fun t => t.id == taskId) with
  | none => { tasks := tasks, request := none, command := none }
  | some task =>
    if serverAvailable then
      let req : RunRequest :=
        { taskId := task.id
        , task := jsOr task.description task.subject
        , workingDir := jsOr task.working_dir "C:\\Users\\user\\Desktop"
        , skill := task.assigned_skill }
      match resp with
      | .threw _ => { tasks := tasks, request := some req, command := none }
      | .json success _ _ =>
        if success then
          { tasks := updateFirstById tasks taskId nowIso
          , request := some req, command := none }
        else { tasks := tasks, request := some req, command := none }
    else
      let workingDir := jsOr task.working_dir "C:\\Users\\user\\Desktop"
      let skill := match task.assigned_skill with
        | some s => if s ≠ "" then "--skill " ++ s else ""
        | none => ""
      let taskDesc := (jsOr task.description task.subject).replace "\"" "\\\""
      let command := jsTrim ("node ~/.claude/command-center/scripts/run-task.js \"" ++ taskDesc
        ++ "\" --dir \"" ++ workingDir ++ "\" " ++ skill)
      { tasks := tasks, request := none, command := some command }

/-- The parsed registry JSON `{tasks, statistics, last_aggregated}`;
every field may be missing. -/
structure RegistryData where
  tasks : Option (List Task)
  statistics : Option Stats
  last_aggregated : Option String
  deriving DecidableEq

/-- Outcome of one `fetch` response in `loadTasks`: not ok, ok with a
body `response.json()` rejects, or ok with parsed data. -/
inductive FetchResponse
  | notOk
  | okMalformed
  | okJson (data : RegistryData)
  deriving DecidableEq

/-- Outcome of one `await fetch(...)`: an exception (network error, or
the 10-second abort) or a response. -/
inductive FetchOutcome
  | threw
  | resp (r : FetchResponse)
  deriving DecidableEq

/-- The two fetches `loadTasks` may issue: the data-folder path and the
parent-directory fallback (used only when the first responds not-ok). -/
structure FetchEnv where
  first : FetchOutcome
  second : FetchOutcome
  deriving DecidableEq

/-- The abort timeout installed by `loadTasks`
(`setTimeout(() => controller.abort(), 10000)`). -/
def loadTasksTimeoutMs : Nat := 10000

/-- The try-block of `loadTasks` up to the parsed data: any exception or
double not-ok yields none (the catch branch). -/
def fetchRegistry (env : FetchEnv) : Option RegistryData :=
  match env.first with
  | .threw => none
  | .resp .okMalformed => none
  | .resp (.okJson d) => some d
  | .resp .notOk =>
    match env.second with
    | .threw => none
    | .resp .okMalformed => none
    | .resp (.okJson d) => some d
    | .resp .notOk => none

/-- The three demo tasks installed by `loadSampleData`. -/
def sampleTasks : List Task :=
  [ { Task.default with
        id := "sched_SkillsCheatSheet", source := "scheduled", type := "scheduled"
      , subject := "יצירת תמונת צ\x27יט-שיט לכישורים", status := "failed"
      , last_result := "claude not found in PATH"
      , schedule := some ⟨"once", "2026-01-29T23:16:04"⟩ }
  , { Task.default with
        id := "session_italy_1", source := "session", type := "task"
      , subject := "חיפוש טיסות TLV→Rome", status := "pending"
      , project := some "Italy 2026" }
  , { Task.default with
        id := "session_italy_2", source := "session", type := "task"
      , subject := "הזמנת מלון בפירנצה", status := "completed"
      , project := some "Italy 2026" } ]

/-- The statistics `loadSampleData` passes to `updateStatistics`. -/
def sampleStats : Stats :=
  { total := 3
  , by_status := { pending := 1, in_progress := 0, completed := 1, failed := 1 } }

/-- Observable outcome of one `loadTasks` call: the task list it leaves
in `state.tasks`, the statistics handed to `updateStatistics`, and
whether the sample-data fallback ran. -/
structure LoadResult where
  tasks : List Task
  stats : Option Stats
  usedSample : Bool
  deriving DecidableEq

/-- `loadTasks`: on success install the fetched tasks, apply stored
assignments, merge pending local drafts and update statistics; on any
failure fall back to `loadSampleData`.  Never throws: every outcome is a
`LoadResult`. -/
def loadTasks (env : FetchEnv) (store : AssignStore) (pendingStore : List Task) :
    LoadResult :=
  match fetchRegistry env with
  | some data =>
    let tasks0 := data.tasks.getD []
    let tasks1 := loadTaskAssignments tasks0 store
    let tasks2 := loadPendingLocalTasks tasks1 pendingStore
    { tasks := tasks2, stats := data.statistics, usedSample := false }
  | none =>
    { tasks := sampleTasks, stats := some sampleStats, usedSample := true }

/-! ## Helper lemmas -/

theorem filterMap_if {α β : Type} (p : α → Prop) [DecidablePred p] (f : α → β)
    (l : List α) :
    l.filterMap (fun a => if p a then some (f a) else none)
      = (l.filter (fun a => decide (p a))).map f := by
  induction l with
  | nil => rfl
  | cons a l ih =>
    simp only [List.filterMap_cons, List.filter_cons]
    split_ifs with h <;> simp_all

theorem markPending_id (t : Task) : (markPending t).id = t.id := rfl

theorem mergeStep_suffix (acc : List Task) (d : Task) :
    List.IsSuffix acc (mergeStep acc d) := by
  simp only [mergeStep]
  split
  · exact List.suffix_refl acc
  · exact List.suffix_cons _ _

theorem foldl_mergeStep_suffix (pending acc : List Task) :
    List.IsSuffix acc (pending.foldl mergeStep acc) := by
  induction pending generalizing acc with
  | nil => exact List.suffix_refl acc
  | cons p rest ih =>
    exact (mergeStep_suffix acc p).trans (ih (mergeStep acc p))

theorem mergeStep_nodup (acc : List Task) (d : Task)
    (h : (acc.map Task.id).Nodup) : ((mergeStep acc d).map Task.id).Nodup := by
  simp only [mergeStep]
  split
  · exact h
  · next hany =>
    simp only [List.map_cons, List.nodup_cons]
    refine ⟨?_, h⟩
    intro hmem
    rcases List.mem_map.mp hmem with ⟨t, ht, hid⟩
    have hx : (t.id == (markPending d).id) = true := beq_iff_eq.mpr hid
    have hall : (acc.any (fun t => t.id == (markPending d).id)) = true :=
      List.any_eq_true.mpr ⟨t, ht, hx⟩
    simp [hall] at hany

theorem foldl_mergeStep_nodup (pending acc : List Task)
    (h : (acc.map Task.id).Nodup) :
    ((pending.foldl mergeStep acc).map Task.id).Nodup := by
  induction pending generalizing acc with
  | nil => exact h
  | cons p rest ih => exact ih (mergeStep acc p) (mergeStep_nodup acc p h)

theorem mergeStep_filter_eq (acc : List Task) (d : Task) (i : String)
    (h : ∃ t ∈ acc, t.id = i) :
    (mergeStep acc d).filter (fun t => t.id == i)
      = acc.filter (fun t => t.id == i) := by
  simp only [mergeStep]
  split
  · rfl
  · next hany =>
    rcases h with ⟨t, ht, hid⟩
    have hne : ((markPending d).id == i) = false := by
      rw [markPending_id]
      refine beq_eq_false_iff_ne.mpr ?_
      intro hcontra
      have hx : (t.id == (markPending d).id) = true :=
        beq_iff_eq.mpr (by rw [hid, markPending_id, hcontra])
      have hall : (acc.any (fun t => t.id == (markPending d).id)) = true :=
        List.any_eq_true.mpr ⟨t, ht, hx⟩
      simp [hall] at hany
    simp [List.filter_cons, hne]

theorem foldl_mergeStep_filter (pending acc : List Task) (i : String)
    (h : ∃ t ∈ acc, t.id = i) :
    (pending.foldl mergeStep acc).filter (fun t => t.id == i)
      = acc.filter (fun t => t.id == i) := by
  induction pending generalizing acc with
  | nil => rfl
  | cons p rest ih =>
    have h1 : ∃ t ∈ mergeStep acc p, t.id = i := by
      rcases h with ⟨t, ht, hid⟩
      exact ⟨t, (mergeStep_suffix acc p).subset ht, hid⟩
    calc ((p :: rest).foldl mergeStep acc).filter (fun t => t.id == i)
        = (rest.foldl mergeStep (mergeStep acc p)).filter (fun t => t.id == i) := rfl
      _ = (mergeStep acc p).filter (fun t => t.id == i) := ih (mergeStep acc p) h1
      _ = acc.filter (fun t => t.id == i) := mergeStep_filter_eq acc p i h

theorem foldl_mergeStep_mem_fresh (pending : List Task) (d : Task) :
    ∀ acc : List Task, d ∈ pending → (∀ t ∈ acc, t.id ≠ d.id) →
    (∀ d2 ∈ pending, d2.id = d.id → d2 = d) →
    markPending d ∈ pending.foldl mergeStep acc := by
  induction pending with
  | nil => intro acc hd; cases hd
  | cons p rest ih =>
    intro acc hd hacc huniq
    by_cases hpd : p = d
    · subst hpd
      have hany : (acc.any (fun t => t.id == (markPending p).id)) = false := by
        rw [List.any_eq_false]
        intro t ht
        simp [markPending_id]
        exact hacc t ht
      have hstep : mergeStep acc p = markPending p :: acc := by
        simp only [mergeStep]
        rw [if_neg (by simp [hany])]
      have hmem : markPending p ∈ mergeStep acc p := by
        rw [hstep]; exact List.mem_cons_self _ _
      exact (foldl_mergeStep_suffix rest (mergeStep acc p)).subset hmem
    · have hd2 : d ∈ rest := by
        rcases List.mem_cons.mp hd with h | h
        · exact absurd h.symm hpd
        · exact h
      have hpid : p.id ≠ d.id := fun h =>
        hpd (huniq p (List.mem_cons_self _ _) h)
      refine ih (mergeStep acc p) hd2 ?_
        (fun d2 h2 => huniq d2 (List.mem_cons_of_mem _ h2))
      intro t ht
      simp only [mergeStep] at ht
      split at ht
      · exact hacc t ht
      · rcases List.mem_cons.mp ht with h | h
        · rw [h, markPending_id]; exact hpid
        · exact hacc t h

theorem jsOr_falsy (v : Option String) (d : String) (h : strTruthy v = false) :
    jsOr v d = d := by
  cases v with
  | none => rfl
  | some s =>
    have hs : s = "" := by
      by_contra hne
      simp [strTruthy, hne] at h
    simp [jsOr, hs]

/-! ## Claim theorems -/

/-- C10: `getStatusInfo` and `getSourceInfo` are total at the rendering
interface: every input (including out-of-enum strings and `undefined`)
yields a display record; an unrecognized status falls back to the
`pending` record and an unrecognized source to the generic record that
echoes the input. -/
theorem getStatusInfo_getSourceInfo_total (s : Option String) :
    (getStatusInfo s = { text := "ממתין", icon := "⏳", cls := "pending" } ∨
     getStatusInfo s = { text := "בביצוע", icon := "🔄", cls := "in_progress" } ∨
     getStatusInfo s = { text := "הושלם", icon := "✅", cls := "completed" } ∨
     getStatusInfo s = { text := "נכשל", icon := "❌", cls := "failed" }) ∧
    (s ≠ some "pending" → s ≠ some "in_progress" → s ≠ some "completed" →
      s ≠ some "failed" →
      getStatusInfo s = { text := "ממתין", icon := "⏳", cls := "pending" }) ∧
    (s ≠ some "scheduled" → s ≠ some "session" → s ≠ some "project" →
      getSourceInfo s = { text := s, icon := "📄" }) := by
  refine ⟨?_, ?_, ?_⟩
  · unfold getStatusInfo
    split_ifs <;> simp
  · intro h1 h2 h3 h4
    unfold getStatusInfo
    split_ifs <;> simp_all
  · intro h1 h2 h3
    unfold getSourceInfo
    split_ifs <;> simp_all

/-- C10 witness: a string outside the enum and the undefined input both
get the documented fallback records. -/
theorem getStatusInfo_getSourceInfo_total_witness :
    getStatusInfo (some "weird") = { text := "ממתין", icon := "⏳", cls := "pending" } ∧
    getSourceInfo none = { text := none, icon := "📄" } :=
  ⟨(getStatusInfo_getSourceInfo_total (some "weird")).2.1
      (by decide) (by decide) (by decide) (by decide),
   (getStatusInfo_getSourceInfo_total none).2.2 (by decide) (by decide) (by decide)⟩

/-- C3: merging pending local drafts preserves id uniqueness and never
overwrites: the loaded tasks survive unchanged as a suffix, a draft whose
id collides with an existing task adds nothing with that id, and a draft
with a fresh id is kept (its subject and working directory are not
consulted, so a content-equal draft with a different id stays). -/
theorem loadPendingLocalTasks_dedup_by_id (tasks pending : List Task)
    (huniq : (tasks.map Task.id).Nodup) :
    (((loadPendingLocalTasks tasks pending).map Task.id).Nodup) ∧
    (List.IsSuffix tasks (loadPendingLocalTasks tasks pending)) ∧
    (∀ d ∈ pending, (∃ t ∈ tasks, t.id = d.id) →
      (loadPendingLocalTasks tasks pending).filter (fun t => t.id == d.id)
        = tasks.filter (fun t => t.id == d.id)) ∧
    (∀ d ∈ pending, (∀ t ∈ tasks, t.id ≠ d.id) →
      (∀ d2 ∈ pending, d2.id = d.id → d2 = d) →
      markPending d ∈ loadPendingLocalTasks tasks pending) := by
  refine ⟨foldl_mergeStep_nodup pending tasks huniq,
          foldl_mergeStep_suffix pending tasks, ?_, ?_⟩
  · intro d _ hex
    exact foldl_mergeStep_filter pending tasks d.id hex
  · intro d hd hfresh huniq2
    exact foldl_mergeStep_mem_fresh pending d tasks hd hfresh huniq2

/-- C3 witness: a draft with the same subject and working directory as an
existing task but a different id is kept by the merge, while the existing
task survives unchanged. -/
theorem loadPendingLocalTasks_dedup_by_id_witness :
    (markPending { Task.default with
        id := "local_9", subject := "s", working_dir := some "d" } ∈
      loadPendingLocalTasks
        [{ Task.default with
             id := "sched_1", subject := "s", working_dir := some "d" }]
        [{ Task.default with
             id := "local_9", subject := "s", working_dir := some "d" }]) ∧
    List.IsSuffix
      [{ Task.default with
           id := "sched_1", subject := "s", working_dir := some "d" }]
      (loadPendingLocalTasks
        [{ Task.default with
             id := "sched_1", subject := "s", working_dir := some "d" }]
        [{ Task.default with
             id := "local_9", subject := "s", working_dir := some "d" }]) := by
  have h := loadPendingLocalTasks_dedup_by_id
    [{ Task.default with
         id := "sched_1", subject := "s", working_dir := some "d" }]
    [{ Task.default with
         id := "local_9", subject := "s", working_dir := some "d" }]
    (by decide)
  refine ⟨h.2.2.2 _ (List.mem_singleton.mpr rfl) ?_ ?_, h.2.1⟩
  · intro t ht
    rw [List.mem_singleton.mp ht]
    decide
  · intro d2 hd2 _
    exact List.mem_singleton.mp hd2

/-- C1 counterexample: the pattern matching is case-sensitive, not
case-insensitive.  `"CLAUDE NOT FOUND in PATH"` contains "claude" and
"not" case-insensitively, yet `analyzeTaskHealth` classifies the task as
"Unknown error" instead of "Claude path not found". -/
theorem analyzeTaskHealth_not_case_insensitive :
    includesCI "CLAUDE NOT FOUND in PATH" "claude" = true ∧
    includesCI "CLAUDE NOT FOUND in PATH" "not" = true ∧
    (analyzeTaskHealth
        [{ Task.default with
             status := "failed", subject := "demo"
           , last_result := "CLAUDE NOT FOUND in PATH" }]).issues
      = [{ task := "demo", issue := "Unknown error"
         , suggestion := "CLAUDE NOT FOUND in PATH" }] := by
  decide

/-- C1 (amended): for every failed task with a non-empty `last_result`,
`analyzeTaskHealth` emits exactly one issue, classified first-match-wins
by case-sensitive substring containment: "Claude path not found" iff the
text contains "claude" and "not"; otherwise "Permission denied" iff it
contains "permission"; otherwise "Unknown error". -/
theorem analyzeTaskHealth_classification (tasks : List Task) :
    ((analyzeTaskHealth tasks).issues
      = ((analyzeTaskHealth tasks).failedTasks.filter
          (fun t => decide (t.last_result ≠ ""))).map classifyFailure) ∧
    (∀ t : Task, t.last_result ≠ "" →
      ((classifyFailure t).issue = "Claude path not found" ↔
        (includesStr t.last_result "claude" = true ∧
         includesStr t.last_result "not" = true)) ∧
      ((classifyFailure t).issue = "Permission denied" ↔
        (¬(includesStr t.last_result "claude" = true ∧
           includesStr t.last_result "not" = true) ∧
         includesStr t.last_result "permission" = true)) ∧
      ((classifyFailure t).issue = "Unknown error" ↔
        (¬(includesStr t.last_result "claude" = true ∧
           includesStr t.last_result "not" = true) ∧
         ¬includesStr t.last_result "permission" = true))) := by
  constructor
  · exact filterMap_if (fun t => t.last_result ≠ "") classifyFailure _
  · intro t _
    unfold classifyFailure
    split_ifs with h1 h2 <;>
      refine ⟨?_, ?_, ?_⟩ <;> simp_all

/-- C1 witness: a concrete permission error is classified as
"Permission denied" by the amended classification rule. -/
theorem analyzeTaskHealth_classification_witness :
    (classifyFailure { Task.default with
        status := "failed", subject := "p"
      , last_result := "permission denied on file" }).issue = "Permission denied" :=
  (((analyzeTaskHealth_classification
      [{ Task.default with
           status := "failed", subject := "p"
         , last_result := "permission denied on file" }]).2
    { Task.default with
        status := "failed", subject := "p"
      , last_result := "permission denied on file" }
    (by decide)).2.1).mpr (by decide)

/-- C4 counterexample: when a task with no `working_dir` is started for
execution, the run request silently substitutes the default
`C:\Users\user\Desktop` — the claim's "never silently replaced by a
default value" fails. -/
theorem startTask_defaults_missing_working_dir :
    ({ Task.default with id := "x", subject := "no dir task" } : Task).working_dir
        = none ∧
    (startTask [{ Task.default with id := "x", subject := "no dir task" }]
        "x" true (.json true "run1" "") "2026-01-30T00:00:00Z").request
      = some { taskId := "x", task := "no dir task"
             , workingDir := "C:\\Users\\user\\Desktop", skill := none } := by
  decide

/-- C4 (amended): creating a task with an empty (post-trim) working
directory is rejected and changes no state — no task added, no
pending-local write, no statistics update; but when a task with a falsy
`working_dir` is started through the server path, the run request fills
in the default `C:\Users\user\Desktop`. -/
theorem saveNewTask_workingDir_validation (form : NewTaskForm) (nowMs : Nat)
    (nowIso : String) (tasks pendingStore tasks2 : List Task) (taskId : String)
    (t : Task) (resp : ServerResponse) (nowIso2 : String) :
    (jsTrim form.workingDir = "" →
      (saveNewTask form nowMs nowIso tasks pendingStore).success = false ∧
      (saveNewTask form nowMs nowIso tasks pendingStore).tasks = tasks ∧
      (saveNewTask form nowMs nowIso tasks pendingStore).pendingStore = pendingStore ∧
      (saveNewTask form nowMs nowIso tasks pendingStore).stats = none) ∧
    (tasks2.find? (fun u => u.id == taskId) = some t →
      strTruthy t.working_dir = false →
      (startTask tasks2 taskId true resp nowIso2).request =
        some { taskId := t.id, task := jsOr t.description t.subject
             , workingDir := "C:\\Users\\user\\Desktop"
             , skill := t.assigned_skill }) := by
  constructor
  · intro hdir
    simp only [saveNewTask]
    split_ifs <;> simp_all
  · intro hfind htruthy
    simp only [startTask, hfind]
    rw [jsOr_falsy t.working_dir _ htruthy]
    cases resp with
    | threw m => rfl
    | json s rid err => cases s <;> rfl

/-- C4 witness: an otherwise-valid form with a whitespace-only working
directory is rejected without touching the task list; and a concrete
started task with `working_dir` present keeps it untouched only because
it is truthy — the falsy branch of the theorem applies to the empty
string as well. -/
theorem saveNewTask_workingDir_validation_witness :
    (saveNewTask { title := "t", description := "", workingDir := "   "
                 , agent := "", skill := "", scheduleType := "now"
                 , scheduleTime := "" } 5 "iso" [] []).success = false ∧
    (startTask
        [{ Task.default with
             id := "y", subject := "s", working_dir := some "" }]
        "y" true (.threw "boom") "iso").request
      = some { taskId := "y", task := "s"
             , workingDir := "C:\\Users\\user\\Desktop", skill := none } := by
  have h := saveNewTask_workingDir_validation
    { title := "t", description := "", workingDir := "   ", agent := ""
    , skill := "", scheduleType := "now", scheduleTime := "" } 5 "iso" [] []
    [{ Task.default with id := "y", subject := "s", working_dir := some "" }]
    "y" { Task.default with id := "y", subject := "s", working_dir := some "" }
    (.threw "boom") "iso"
  exact ⟨(h.1 (by decide)).1, h.2 (by decide) (by decide)⟩

/-- C5: every task created through the new-task form gets a
client-generated id `local_<Date.now()>` (so it begins with the `local_`
prefix), status `pending`, source `scheduled` when scheduled for later
and `session` otherwise, and is marked `_local`/`_pendingSync` and written
to the pending-local store until a later aggregation merges it. -/
theorem saveNewTask_creates_local_pending (form : NewTaskForm) (nowMs : Nat)
    (nowIso : String) (tasks pendingStore : List Task)
    (htitle : jsTrim form.title ≠ "") (hdir : jsTrim form.workingDir ≠ "") :
    (saveNewTask form nowMs nowIso tasks pendingStore).success = true ∧
    ∃ nt : Task,
      (saveNewTask form nowMs nowIso tasks pendingStore).tasks = nt :: tasks ∧
      nt.id = "local_" ++ toString nowMs ∧
      (∃ rest, nt.id = "local_" ++ rest) ∧
      nt.status = "pending" ∧
      nt.source = (if form.scheduleType = "later" then "scheduled" else "session") ∧
      nt.localFlag = true ∧ nt.pendingSync = true ∧
      (saveNewTask form nowMs nowIso tasks pendingStore).pendingStore
        = saveTaskLocally pendingStore nt := by
  simp only [saveNewTask]
  rw [if_neg htitle, if_neg hdir]
  exact ⟨rfl, _, rfl, rfl, ⟨toString nowMs, rfl⟩, rfl, rfl, rfl, rfl, rfl⟩

/-- C5 witness: a concrete form scheduled for later produces the
`local_`-prefixed pending scheduled task. -/
theorem saveNewTask_creates_local_pending_witness :
    (saveNewTask { title := "t", description := "", workingDir := "C:\\dir"
                 , agent := "", skill := "", scheduleType := "later"
                 , scheduleTime := "2026-02-01T10:00" } 77 "iso" [] []).success
      = true ∧
    ∃ nt : Task, nt.id = "local_" ++ toString (77 : Nat) ∧
      nt.status = "pending" ∧ nt.source = "scheduled" ∧ nt.localFlag = true := by
  have h := saveNewTask_creates_local_pending
    { title := "t", description := "", workingDir := "C:\\dir", agent := ""
    , skill := "", scheduleType := "later", scheduleTime := "2026-02-01T10:00" }
    77 "iso" [] [] (by decide) (by decide)
  rcases h with ⟨hs, nt, _, hid, _, hstat, hsrc, hloc, _⟩
  exact ⟨hs, nt, hid, hstat, by rw [hsrc]; decide, hloc⟩

/-- C6: after a successful save, the statistics handed to the display are
a pure function of the updated task list — the total is its length and
each `by_status` count is the number of tasks with that status; on a
rejected save no statistics are produced at all. -/
theorem saveNewTask_stats_pure_function (form : NewTaskForm) (nowMs : Nat)
    (nowIso : String) (tasks pendingStore : List Task) :
    ((saveNewTask form nowMs nowIso tasks pendingStore).success = true →
      ∃ s : Stats,
        (saveNewTask form nowMs nowIso tasks pendingStore).stats = some s ∧
        s.total = (saveNewTask form nowMs nowIso tasks pendingStore).tasks.length ∧
        s.by_status.pending
          = ((saveNewTask form nowMs nowIso tasks pendingStore).tasks.filter
              (fun t => t.status == "pending")).length ∧
        s.by_status.in_progress
          = ((saveNewTask form nowMs nowIso tasks pendingStore).tasks.filter
              (fun t => t.status == "in_progress")).length ∧
        s.by_status.completed
          = ((saveNewTask form nowMs nowIso tasks pendingStore).tasks.filter
              (fun t => t.status == "completed")).length ∧
        s.by_status.failed
          = ((saveNewTask form nowMs nowIso tasks pendingStore).tasks.filter
              (fun t => t.status == "failed")).length) ∧
    ((saveNewTask form nowMs nowIso tasks pendingStore).success = false →
      (saveNewTask form nowMs nowIso tasks pendingStore).stats = none) := by
  constructor
  · intro hsucc
    by_cases h1 : jsTrim form.title = ""
    · simp [saveNewTask, if_pos h1] at hsucc
    · by_cases h2 : jsTrim form.workingDir = ""
      · simp [saveNewTask, if_neg h1, if_pos h2] at hsucc
      · simp only [saveNewTask, if_neg h1, if_neg h2]
        exact ⟨computeStats _, rfl, rfl, rfl, rfl, rfl, rfl⟩
  · intro hfail
    by_cases h1 : jsTrim form.title = ""
    · simp [saveNewTask, if_pos h1]
    · by_cases h2 : jsTrim form.workingDir = ""
      · simp [saveNewTask, if_neg h1, if_pos h2]
      · simp [saveNewTask, if_neg h1, if_neg h2] at hfail

/-- C6 witness: saving a concrete task into a two-task list yields
statistics that count the three resulting tasks by status. -/
theorem saveNewTask_stats_pure_function_witness :
    ∃ s : Stats,
      (saveNewTask { title := "t", description := "", workingDir := "C:\\dir"
                   , agent := "", skill := "", scheduleType := "now"
                   , scheduleTime := "" } 9 "iso"
        [{ Task.default with id := "a", status := "completed" },
         { Task.default with id := "b", status := "pending" }] []).stats = some s ∧
      s.total = 3 ∧ s.by_status.pending = 2 ∧ s.by_status.completed = 1 := by
  have h := (saveNewTask_stats_pure_function
    { title := "t", description := "", workingDir := "C:\\dir", agent := ""
    , skill := "", scheduleType := "now", scheduleTime := "" } 9 "iso"
    [{ Task.default with id := "a", status := "completed" },
     { Task.default with id := "b", status := "pending" }] []).1 (by decide)
  rcases h with ⟨s, hs, h1, h2, _, h4, _⟩
  refine ⟨s, hs, ?_, ?_, ?_⟩
  · rw [h1]; decide
  · rw [h2]; decide
  · rw [h4]; decide

/-- C2 counterexample: a failed task at the retry ceiling
(`retry_count = 3`) is still selected and analyzed by
`analyzeTaskHealth`, contradicting the claimed `retry_count < 3`
eligibility filter. -/
theorem analyzeTaskHealth_ignores_retry_ceiling :
    ((analyzeTaskHealth
        [{ Task.default with
             id := "c", subject := "ceiling", status := "failed"
           , retry_count := some 3, last_result := "boom" }]).failedTasks
      = [{ Task.default with
             id := "c", subject := "ceiling", status := "failed"
           , retry_count := some 3, last_result := "boom" }]) ∧
    ((analyzeTaskHealth
        [{ Task.default with
             id := "c", subject := "ceiling", status := "failed"
           , retry_count := some 3, last_result := "boom" }]).issues
      = [{ task := "ceiling", issue := "Unknown error", suggestion := "boom" }]) := by
  decide

/-- C2 (amended): a health-check pass selects for analysis exactly the
tasks with `status == 'failed'`; `retry_count` is never consulted, a task
whose status is not 'failed' is never selected, and the pass itself
attempts no fixes. -/
theorem analyzeTaskHealth_selection (tasks : List Task) :
    ((analyzeTaskHealth tasks).failedTasks
      = tasks.filter (fun t => t.status == "failed")) ∧
    (∀ t : Task, t ∈ (analyzeTaskHealth tasks).failedTasks ↔
      (t ∈ tasks ∧ t.status = "failed")) ∧
    ((analyzeTaskHealth tasks).fixesAttempted = 0) := by
  refine ⟨rfl, ?_, rfl⟩
  intro t
  simp [analyzeTaskHealth, List.mem_filter]

/-- C2 witness: with one under-ceiling failed task, one at-ceiling failed
task and one pending task, the selection picks exactly the two failed
ones. -/
theorem analyzeTaskHealth_selection_witness :
    ({ Task.default with id := "b", status := "pending" } ∈
      (analyzeTaskHealth
        [{ Task.default with id := "a", status := "failed", retry_count := some 1 },
         { Task.default with id := "b", status := "pending" }]).failedTasks) = False :=
  by
    have h := (analyzeTaskHealth_selection
      [{ Task.default with id := "a", status := "failed", retry_count := some 1 },
       { Task.default with id := "b", status := "pending" }]).2.1
    simp only [eq_iff_iff, iff_false]
    intro hmem
    exact absurd ((h _).mp hmem).2 (by decide)

/-- C7: `loadTasks` installs a bounded 10-second abort timeout and fails
soft: on every failure outcome — exception on either fetch (network error
or abort), non-OK responses from both data paths, or malformed JSON — it
does not propagate the exception but renders the sample-data view, whose
task list is non-empty; on success it installs the fetched tasks with
assignments applied and pending drafts merged. -/
theorem loadTasks_fails_soft :
    (∀ (store : AssignStore) (pendingStore : List Task) (x : FetchOutcome),
      loadTasks ⟨.threw, x⟩ store pendingStore
        = { tasks := sampleTasks, stats := some sampleStats, usedSample := true }) ∧
    (∀ (store : AssignStore) (pendingStore : List Task) (x : FetchOutcome),
      loadTasks ⟨.resp .okMalformed, x⟩ store pendingStore
        = { tasks := sampleTasks, stats := some sampleStats, usedSample := true }) ∧
    (∀ (store : AssignStore) (pendingStore : List Task),
      loadTasks ⟨.resp .notOk, .threw⟩ store pendingStore
        = { tasks := sampleTasks, stats := some sampleStats, usedSample := true }) ∧
    (∀ (store : AssignStore) (pendingStore : List Task),
      loadTasks ⟨.resp .notOk, .resp .notOk⟩ store pendingStore
        = { tasks := sampleTasks, stats := some sampleStats, usedSample := true }) ∧
    (∀ (store : AssignStore) (pendingStore : List Task),
      loadTasks ⟨.resp .notOk, .resp .okMalformed⟩ store pendingStore
        = { tasks := sampleTasks, stats := some sampleStats, usedSample := true }) ∧
    (∀ (store : AssignStore) (pendingStore : List Task) (d : RegistryData)
        (x : FetchOutcome),
      loadTasks ⟨.resp (.okJson d), x⟩ store pendingStore
        = { tasks := loadPendingLocalTasks
              (loadTaskAssignments (d.tasks.getD []) store) pendingStore
          , stats := d.statistics, usedSample := false }) ∧
    (∀ (store : AssignStore) (pendingStore : List Task) (d : RegistryData),
      loadTasks ⟨.resp .notOk, .resp (.okJson d)⟩ store pendingStore
        = { tasks := loadPendingLocalTasks
              (loadTaskAssignments (d.tasks.getD []) store) pendingStore
          , stats := d.statistics, usedSample := false }) ∧
    sampleTasks.length = 3 ∧
    loadTasksTimeoutMs = 10000 :=
  ⟨fun _ _ _ => rfl, fun _ _ _ => rfl, fun _ _ => rfl, fun _ _ => rfl,
   fun _ _ => rfl, fun _ _ _ _ => rfl, fun _ _ _ => rfl, rfl, rfl⟩

theorem updateFirstById_length (tasks : List Task) (taskId nowIso : String) :
    (updateFirstById tasks taskId nowIso).length = tasks.length := by
  induction tasks with
  | nil => rfl
  | cons t rest ih =>
    simp only [updateFirstById]
    split <;> simp [ih]

theorem updateFirstById_frame (tasks : List Task) (taskId nowIso : String) :
    ∀ (i : Nat) (t : Task), tasks[i]? = some t → t.id ≠ taskId →
      (updateFirstById tasks taskId nowIso)[i]? = some t := by
  induction tasks with
  | nil => intro i t h; simp at h
  | cons a rest ih =>
    intro i t h hne
    cases i with
    | zero =>
      simp only [List.getElem?_cons_zero, Option.some.injEq] at h
      subst h
      simp only [updateFirstById]
      rw [if_neg (by simp [hne])]
      simp
    | succ n =>
      simp only [List.getElem?_cons_succ] at h
      simp only [updateFirstById]
      split
      · simpa using h
      · simpa using ih n t h hne

theorem updateFirstById_first_match (tasks : List Task) (taskId nowIso : String) :
    ∀ (i : Nat) (t : Task), tasks[i]? = some t → t.id = taskId →
      (∀ (j : Nat) (u : Task), j < i → tasks[j]? = some u → u.id ≠ taskId) →
      (updateFirstById tasks taskId nowIso)[i]?
        = some { t with status := "in_progress", last_updated := some nowIso } := by
  induction tasks with
  | nil => intro i t h; simp at h
  | cons a rest ih =>
    intro i t h hid hbefore
    cases i with
    | zero =>
      simp only [List.getElem?_cons_zero, Option.some.injEq] at h
      subst h
      simp only [updateFirstById]
      rw [if_pos (beq_iff_eq.mpr hid)]
      simp
    | succ n =>
      have ha : a.id ≠ taskId :=
        hbefore 0 a (Nat.succ_pos n) (by simp)
      simp only [List.getElem?_cons_succ] at h
      simp only [updateFirstById]
      rw [if_neg (by simp [ha])]
      simpa using ih n t h hid
        (fun j u hj hu => hbefore (j + 1) u (Nat.succ_lt_succ hj) (by simpa using hu))

/-- C8: `startTask` mutates at most the selected task, and only on
confirmed success.  When the id is absent, the server is unavailable, the
request throws, or the server reports failure, the task list is
unchanged; when the server reports success the list becomes
`updateFirstById`, which preserves length, leaves every task whose id
differs untouched, and rewrites only the status and `last_updated` of the
first task with the given id. -/
theorem startTask_frame (tasks : List Task) (taskId : String) (sAvail : Bool)
    (resp : ServerResponse) (nowIso : String) :
    (tasks.find? (fun t => t.id == taskId) = none →
      (startTask tasks taskId sAvail resp nowIso).tasks = tasks) ∧
    (sAvail = false → (startTask tasks taskId sAvail resp nowIso).tasks = tasks) ∧
    (∀ m, resp = .threw m → (startTask tasks taskId sAvail resp nowIso).tasks = tasks) ∧
    (∀ rid err, resp = .json false rid err →
      (startTask tasks taskId sAvail resp nowIso).tasks = tasks) ∧
    (∀ t rid err, tasks.find? (fun t => t.id == taskId) = some t →
      resp = .json true rid err →
      (startTask tasks taskId true resp nowIso).tasks
        = updateFirstById tasks taskId nowIso) ∧
    ((updateFirstById tasks taskId nowIso).length = tasks.length) ∧
    (∀ (i : Nat) (t : Task), tasks[i]? = some t → t.id ≠ taskId →
      (updateFirstById tasks taskId nowIso)[i]? = some t) ∧
    (∀ (i : Nat) (t : Task), tasks[i]? = some t → t.id = taskId →
      (∀ (j : Nat) (u : Task), j < i → tasks[j]? = some u → u.id ≠ taskId) →
      (updateFirstById tasks taskId nowIso)[i]?
        = some { t with status := "in_progress", last_updated := some nowIso }) := by
  refine ⟨?_, ?_, ?_, ?_, ?_, updateFirstById_length tasks taskId nowIso,
          updateFirstById_frame tasks taskId nowIso,
          updateFirstById_first_match tasks taskId nowIso⟩
  · intro h
    simp [startTask, h]
  · intro h
    subst h
    cases hfind : tasks.find? (fun t => t.id == taskId) with
    | none => simp [startTask, hfind]
    | some t => simp [startTask, hfind]
  · intro m h
    subst h
    cases hfind : tasks.find? (fun t => t.id == taskId) with
    | none => simp [startTask, hfind]
    | some t => cases sAvail <;> simp [startTask, hfind]
  · intro rid err h
    subst h
    cases hfind : tasks.find? (fun t => t.id == taskId) with
    | none => simp [startTask, hfind]
    | some t => cases sAvail <;> simp [startTask, hfind]
  · intro t rid err hfind hresp
    subst hresp
    simp [startTask, hfind]

/-- C8 witness: starting task "b" in a two-task list on a successful
server response updates exactly that task's status and timestamp. -/
theorem startTask_frame_witness :
    (startTask
        [{ Task.default with id := "a", status := "pending" },
         { Task.default with id := "b", subject := "bb", status := "failed" }]
        "b" true (.json true "r1" "") "2026-01-30").tasks
      = [{ Task.default with id := "a", status := "pending" },
         { Task.default with
             id := "b", subject := "bb", status := "in_progress"
           , last_updated := some "2026-01-30" }] := by
  have h := (startTask_frame
    [{ Task.default with id := "a", status := "pending" },
     { Task.default with id := "b", subject := "bb", status := "failed" }]
    "b" true (.json true "r1" "") "2026-01-30").2.2.2.2.1
    { Task.default with id := "b", subject := "bb", status := "failed" }
    "r1" "" (by decide) rfl
  rw [h]
  decide

theorem storeLookup_storeInsert_self (store : AssignStore) (id : String)
    (e : AssignEntry) : storeLookup (storeInsert store id e) id = some e := by
  induction store with
  | nil => simp [storeInsert, storeLookup]
  | cons p rest ih =>
    by_cases hp : (p.1 == id) = true
    · simp [storeInsert, hp, storeLookup]
    · have hp2 : (p.1 == id) = false := by simpa using hp
      simp only [storeInsert, hp2, Bool.false_eq_true, if_false]
      simpa [storeLookup, hp2] using ih

theorem storeLookup_save_self (store : AssignStore) (id : String)
    (ty : AssignType) (v : Option String) :
    storeLookup (saveTaskAssignment store id ty v) id
      = some (setField ((storeLookup store id).getD ⟨none, none⟩) ty v) :=
  storeLookup_storeInsert_self store id _

theorem applyEntry_skill_some (e : AssignEntry) (t : Task) (v : String)
    (h : e.skill = some v) (hv : v ≠ "") :
    (applyEntry e t).assigned_skill = some v := by
  cases hag : e.agent with
  | none => simp [applyEntry, h, hag, hv]
  | some a => by_cases ha : a = "" <;> simp [applyEntry, h, hag, hv, ha]

theorem applyEntry_agent_some (e : AssignEntry) (t : Task) (v : String)
    (h : e.agent = some v) (hv : v ≠ "") :
    (applyEntry e t).assigned_agent = some v := by
  cases hsk : e.skill with
  | none => simp [applyEntry, h, hsk, hv]
  | some b => by_cases hb : b = "" <;> simp [applyEntry, h, hsk, hv, hb]

theorem applyEntry_skill_none (e : AssignEntry) (t : Task)
    (h : e.skill = none) : (applyEntry e t).assigned_skill = t.assigned_skill := by
  cases hag : e.agent with
  | none => simp [applyEntry, h, hag]
  | some a => by_cases ha : a = "" <;> simp [applyEntry, h, hag, ha]

theorem applyEntry_agent_none (e : AssignEntry) (t : Task)
    (h : e.agent = none) : (applyEntry e t).assigned_agent = t.assigned_agent := by
  cases hsk : e.skill with
  | none => simp [applyEntry, h, hsk]
  | some b => by_cases hb : b = "" <;> simp [applyEntry, h, hsk, hb]

/-- C9 counterexample: saving the non-null empty string as a skill stores
it, but `loadTaskAssignments` skips falsy values, so the assignment is
not restored — the round trip fails for `v = ""`. -/
theorem saveTaskAssignment_empty_value_not_restored :
    saveTaskAssignment [] "a" .skill (some "")
      = [("a", { skill := some "", agent := none })] ∧
    loadTaskAssignments [{ Task.default with id := "a" }]
        (saveTaskAssignment [] "a" .skill (some ""))
      = [{ Task.default with id := "a" }] ∧
    ({ Task.default with id := "a" } : Task).assigned_skill = none := by
  decide

/-- C9 (amended): for every task in the list and non-empty value `v`,
`saveTaskAssignment` followed by `loadTaskAssignments` restores
`assigned_skill` (type 'skill') or `assigned_agent` (type 'agent') to
`v`; saving null removes the stored field, so a subsequent load leaves
that field of the task untouched. -/
theorem saveTaskAssignment_roundtrip (tasks : List Task) (store : AssignStore)
    (id : String) (ty : AssignType) (v : String) (hv : v ≠ "") :
    (∀ (i : Nat) (t : Task), tasks[i]? = some t → t.id = id →
      ∃ u, (loadTaskAssignments tasks (saveTaskAssignment store id ty (some v)))[i]?
          = some u ∧
        (ty = .skill → u.assigned_skill = some v) ∧
        (ty = .agent → u.assigned_agent = some v)) ∧
    (∀ (i : Nat) (t : Task), tasks[i]? = some t → t.id = id →
      ∃ u, (loadTaskAssignments tasks (saveTaskAssignment store id ty none))[i]?
          = some u ∧
        (ty = .skill → u.assigned_skill = t.assigned_skill) ∧
        (ty = .agent → u.assigned_agent = t.assigned_agent)) := by
  constructor
  · intro i t hit hid
    refine ⟨applyAssignmentsTask (saveTaskAssignment store id ty (some v)) t,
            ?_, ?_, ?_⟩
    · rw [loadTaskAssignments, List.getElem?_map, hit]
      rfl
    · intro hty
      subst hty
      simp only [applyAssignmentsTask, hid, storeLookup_save_self]
      exact applyEntry_skill_some _ t v (by simp [setField]) hv
    · intro hty
      subst hty
      simp only [applyAssignmentsTask, hid, storeLookup_save_self]
      exact applyEntry_agent_some _ t v (by simp [setField]) hv
  · intro i t hit hid
    refine ⟨applyAssignmentsTask (saveTaskAssignment store id ty none) t,
            ?_, ?_, ?_⟩
    · rw [loadTaskAssignments, List.getElem?_map, hit]
      rfl
    · intro hty
      subst hty
      simp only [applyAssignmentsTask, hid, storeLookup_save_self]
      exact applyEntry_skill_none _ t (by simp [setField])
    · intro hty
      subst hty
      simp only [applyAssignmentsTask, hid, storeLookup_save_self]
      exact applyEntry_agent_none _ t (by simp [setField])

/-- C9 witness: a concrete skill assignment round-trips through the
store, and a subsequent null save removes it so a load leaves the task's
field unchanged. -/
theorem saveTaskAssignment_roundtrip_witness :
    ∃ u, (loadTaskAssignments [{ Task.default with id := "a" }]
        (saveTaskAssignment [] "a" .skill (some "sk")))[0]? = some u ∧
      u.assigned_skill = some "sk" := by
  have h := (saveTaskAssignment_roundtrip [{ Task.default with id := "a" }]
    [] "a" .skill "sk" (by decide)).1 0
    { Task.default with id := "a" } (by decide) rfl
  rcases h with ⟨u, hu, hs, _⟩
  exact ⟨u, hu, hs rfl⟩

end TaskCC
